import Mathlib

/-!
# Logs API subscription client (`extension/logsapi.go`)

A shallow embedding of `(*Client).SubscribeLogs` and of the library calls it makes
(`json.Marshal`, `fmt.Sprintf`, `http.NewRequestWithContext`, `Header.Set`,
`(*http.Client).Do`, `ioutil.ReadAll`, `fmt.Errorf`), followed by the properties of the
subscription request and of the reported outcome.

Conventions.
* Go strings are Lean `String`s (Go strings that are valid UTF-8).
* `uint32` values are natural numbers; the function does no arithmetic on them, so every
  statement below is proved for all naturals, the `uint32` range included.
* A Go `error` is observed through its only method, `Error() string`.
* The HTTP client is explicit state: it records every request handed to `Do`.
-/

namespace LogsAPI

/-! ## Go values used by the function -/

/-- A Go `error` interface value, observed through `Error() string`. -/
structure GoError where
  msg : String
deriving DecidableEq, Repr

/-- A Go slice `[]α`: the nil slice, or a non-nil slice with its elements.
Both `nil` and a non-nil slice without elements have length 0. -/
inductive Slice (α : Type) where
  | nil : Slice α
  | elems (xs : List α) : Slice α
deriving DecidableEq, Repr

/-- Elements of a slice, `for _, x := range s`. -/
def Slice.toList {α : Type} : Slice α → List α
  | Slice.nil => []
  | Slice.elems xs => xs

/-- Go `len(s)`. -/
def Slice.len {α : Type} (s : Slice α) : Nat := s.toList.length

/-- Source: `type LogType string`. -/
abbrev LogType := String

/-- Source: `Platform LogType = "platform"`. -/
def Platform : LogType := "platform"
/-- Source: `Function LogType = "function"`. -/
def Function : LogType := "function"
/-- Source: `Extension LogType = "extension"`. -/
def Extension : LogType := "extension"

/-- Source: `const logsURL = "/2020-08-15/logs"`. -/
def logsURL : String := "/2020-08-15/logs"

/-- Source: `type SubscribeLogsParams struct`, four `uint32` fields. -/
structure SubscribeLogsParams where
  ListenPort : Nat
  MaxItems : Nat
  MaxBytes : Nat
  TimeoutMS : Nat
deriving DecidableEq, Repr

/-- Source: `type SubscribeResponse struct { body string }`. -/
structure SubscribeResponse where
  body : String
deriving DecidableEq, Repr

/-- The zero value of `SubscribeResponse`, which the named result `res` holds on entry. -/
def SubscribeResponse.zero : SubscribeResponse := ⟨""⟩

/-! ## `encoding/json` -/

/-- The dynamic values stored in the `interface{}` payload of `SubscribeLogs`, plus one
kind (`chan`) that `json.Marshal` does not support. -/
inductive GoValue where
  | str (s : String) : GoValue
  | uint32 (n : Nat) : GoValue
  | logTypes (ts : Slice LogType) : GoValue
  | map (kvs : List (String × GoValue)) : GoValue
  | chan : GoValue

/-- A JSON document as a tree. Object members are kept in the order the encoder writes
them. -/
inductive JSON where
  | null : JSON
  | str (s : String) : JSON
  | num (n : Nat) : JSON
  | arr (xs : List JSON) : JSON
  | obj (kvs : List (String × JSON)) : JSON
deriving Repr

/-- Byte-wise order on keys, as `json.Marshal` sorts map keys. -/
def keyLess : List Char → List Char → Bool
  | [], [] => false
  | [], _ :: _ => true
  | _ :: _, [] => false
  | a :: as, b :: bs => if a.toNat < b.toNat then true else if b.toNat < a.toNat then false
      else keyLess as bs

/-- Insert a member into a key-sorted member list. -/
def insertMember (kv : String × JSON) : List (String × JSON) → List (String × JSON)
  | [] => [kv]
  | x :: rest => if keyLess kv.1.data x.1.data then kv :: x :: rest
      else x :: insertMember kv rest

/-- Sort members by key. -/
def sortMembers : List (String × JSON) → List (String × JSON)
  | [] => []
  | kv :: rest => insertMember kv (sortMembers rest)

mutual
/-- Go `json.Marshal` on the values of `GoValue`: strings and unsigned integers encode as
themselves, a nil slice as `null`, a non-nil slice as an array, a map as an object with
its keys sorted, and an unsupported kind is an error. -/
def json_Marshal : GoValue → Except GoError JSON
  | GoValue.str s => Except.ok (JSON.str s)
  | GoValue.uint32 n => Except.ok (JSON.num n)
  | GoValue.logTypes Slice.nil => Except.ok JSON.null
  | GoValue.logTypes (Slice.elems ts) => Except.ok (JSON.arr (ts.map JSON.str))
  | GoValue.map kvs =>
      match marshalMembers kvs with
      | Except.ok ms => Except.ok (JSON.obj (sortMembers ms))
      | Except.error e => Except.error e
  | GoValue.chan => Except.error ⟨"json: unsupported type: chan int"⟩
/-- Members of a map, each value marshalled; the first failure is reported. -/
def marshalMembers : List (String × GoValue) → Except GoError (List (String × JSON))
  | [] => Except.ok []
  | (k, v) :: rest =>
      match json_Marshal v with
      | Except.error e => Except.error e
      | Except.ok j =>
          match marshalMembers rest with
          | Except.error e => Except.error e
          | Except.ok ms => Except.ok ((k, j) :: ms)
end

/-- Keys of a JSON object, in document order; a non-object has none. -/
def JSON.keys : JSON → List String
  | JSON.obj kvs => kvs.map Prod.fst
  | _ => []

/-- Member lookup in a JSON object. -/
def JSON.get? : JSON → String → Option JSON
  | JSON.obj kvs, k => (kvs.find? (fun kv => kv.1 == k)).map Prod.snd
  | _, _ => none

/-- Whether the document is an object. -/
def JSON.isObj : JSON → Bool
  | JSON.obj _ => true
  | _ => false

/-- Go `fmt.Sprintf("%v", n)` for an unsigned integer: its decimal digits. -/
def formatUint (n : Nat) : String := String.mk (Nat.toDigits 10 n)

/-! ## `context`, `net/http`, `io/ioutil` -/

/-- A `context.Context` argument: the nil interface value, a context that is not done, or
a context that is done (cancelled or past its deadline) with `ctx.Err()`. -/
inductive Context where
  | nil : Context
  | live : Context
  | done (err : GoError) : Context
deriving DecidableEq, Repr

/-- Library behaviour that is consulted but not embedded: canonical form of a header key
(`textproto.CanonicalMIMEHeaderKey`), the error `http.NewRequestWithContext` reports for
an invalid method, and the error `url.Parse` reports for a URL. -/
structure Env where
  canonicalKey : String → String
  methodErr : String → Option GoError
  urlParseErr : String → Option GoError

/-- Go `http.Header`: canonical key to values; an absent key has no values. -/
abbrev Header := String → List String

/-- Go `Header.Set`: the values of the canonical key become the single value. -/
def Header.Set (env : Env) (h : Header) (key value : String) : Header :=
  fun k => if k = env.canonicalKey key then [value] else h k

/-- Go `Header.Get`: first value of the canonical key, or the empty string. -/
def Header.Get (env : Env) (h : Header) (key : String) : String :=
  (h (env.canonicalKey key)).headD ""

/-- Go `*http.Request`, the fields the function sets. `Body` is the JSON document held by
the request body buffer. -/
structure Request where
  ctx : Context
  Method : String
  URL : String
  Header : Header
  Body : JSON

/-- The error of `http.NewRequestWithContext`, if any: an invalid method is rejected
first, then a nil context, then a URL that does not parse. -/
def newRequestErr (env : Env) (ctx : Context) (method url : String) : Option GoError :=
  match env.methodErr method with
  | some err => some err
  | none =>
      match ctx with
      | Context.nil => some ⟨"net/http: nil Context"⟩
      | _ => env.urlParseErr url

/-- Go `http.NewRequestWithContext`: an error, or a request without headers. -/
def http_NewRequestWithContext (env : Env) (ctx : Context) (method url : String)
    (body : JSON) : Except GoError Request :=
  let method := if method = "" then "GET" else method
  match newRequestErr env ctx method url with
  | some err => Except.error err
  | none => Except.ok ⟨ctx, method, url, fun _ => [], body⟩

/-- A response body stream: the bytes it yields, then end of stream (`err = none`) or a
read error. -/
structure Body where
  data : String
  err : Option GoError
deriving DecidableEq, Repr

/-- Go `ioutil.ReadAll`: everything read until end of stream or the first error. -/
def ioutil_ReadAll (b : Body) : String × Option GoError := (b.data, b.err)

/-- Go `*http.Response`, the fields the function reads. -/
structure Response where
  Status : String
  StatusCode : Int
  Body : Body
deriving DecidableEq, Repr

/-- Source: `http.StatusOK`. -/
def http_StatusOK : Int := 200

/-- Result of `(*http.Client).Do`: an error (the response, if any, is to be ignored), or
a response with a nil error. -/
inductive DoResult where
  | fail (err : GoError) (resp : Option Response) : DoResult
  | ok (resp : Response) : DoResult

/-- The HTTP client as explicit state: the requests handed to `Do` so far, the number of
response bodies closed so far, and how the transport answers a request given the
requests before it. -/
structure HTTPClient where
  sent : List Request
  closed : Nat
  respond : List Request → Request → DoResult

/-- Go `(*http.Client).Do`: the request is recorded and the transport answers. -/
def HTTPClient.Do (c : HTTPClient) (req : Request) : DoResult × HTTPClient :=
  (c.respond c.sent req, { c with sent := c.sent ++ [req] })

/-- Go `httpRes.Body.Close()`. -/
def HTTPClient.closeBody (c : HTTPClient) : HTTPClient :=
  { c with closed := c.closed + 1 }

/-- Modelled from the spec: the `Client` struct is declared outside `logsapi.go`. It holds
the base control-plane URL and the extension identifier, both fixed at construction, and
the HTTP transport; these are the three fields `SubscribeLogs` reads. -/
structure Client where
  baseURL : String
  ExtensionID : String
  httpClient : HTTPClient

/-- Go `fmt.Errorf("extension: SubscribeLogs failed, status: %s, response: %s", s, b)`. -/
def fmt_Errorf_status (status body : String) : GoError :=
  ⟨"extension: SubscribeLogs failed, status: " ++ status ++ ", response: " ++ body⟩

/-! ## `SubscribeLogs` -/

/-- The value passed to `json.Marshal` in `SubscribeLogs` (the map literal). -/
def payload (types : Slice LogType) (params : SubscribeLogsParams) : GoValue :=
  GoValue.map [
    ("destination", GoValue.map [
      ("protocol", GoValue.str "HTTP"),
      ("URI", GoValue.str ("http://sandbox:" ++ formatUint params.ListenPort)),
      ("encoding", GoValue.str "JSON"),
      ("method", GoValue.str "POST")]),
    ("types", GoValue.logTypes types),
    ("buffering", GoValue.map [
      ("timeoutMs", GoValue.uint32 params.TimeoutMS),
      ("maxBytes", GoValue.uint32 params.MaxBytes),
      ("maxItems", GoValue.uint32 params.MaxItems)])]

/-- Source: `func (e *Client) SubscribeLogs(ctx, types, params) (res SubscribeResponse,
err error)`. The header name `extensionIdentifierHeader` is a constant declared outside
`logsapi.go` and is taken as a parameter. The result is the pair `(res, err)` together
with the client after the call. -/
def SubscribeLogs (env : Env) (extensionIdentifierHeader : String) (e : Client)
    (ctx : Context) (types : Slice LogType) (params : SubscribeLogsParams) :
    (SubscribeResponse × Option GoError) × Client :=
  let res := SubscribeResponse.zero
  let url := e.baseURL ++ logsURL
  match json_Marshal (payload types params) with
  | Except.error err => ((res, some err), e)
  | Except.ok reqBody =>
      match http_NewRequestWithContext env ctx "PUT" url reqBody with
      | Except.error err => ((res, some err), e)
      | Except.ok httpReq =>
          let httpReq := { httpReq with
            Header := Header.Set env httpReq.Header "Content-Type" "application/json" }
          let httpReq := { httpReq with
            Header := Header.Set env httpReq.Header extensionIdentifierHeader e.ExtensionID }
          match e.httpClient.Do httpReq with
          | (DoResult.fail err _, hc) => ((res, some err), { e with httpClient := hc })
          | (DoResult.ok httpRes, hc) =>
              -- `defer httpRes.Body.Close()` runs on each of the three returns below
              let e1 : Client := { e with httpClient := hc.closeBody }
              match ioutil_ReadAll httpRes.Body with
              | (_, some err) => ((res, some err), e1)
              | (body, none) =>
                  if httpRes.StatusCode ≠ http_StatusOK then
                    ((res, some (fmt_Errorf_status httpRes.Status body)), e1)
                  else
                    (({ res with body := body }, none), e1)

/-! ## Definitions used to state the properties -/

/-- The JSON document `json.Marshal` produces for the payload, or `null` if it failed. -/
def reqBody (types : Slice LogType) (params : SubscribeLogsParams) : JSON :=
  match json_Marshal (payload types params) with
  | Except.ok j => j
  | Except.error _ => JSON.null

/-- The request handed to `Do` when the request is built: method, URL and body as passed
to `http.NewRequestWithContext`, and the two headers set afterwards. -/
def outboundRequest (env : Env) (extensionIdentifierHeader : String) (e : Client)
    (ctx : Context) (types : Slice LogType) (params : SubscribeLogsParams) : Request :=
  { ctx := ctx
    Method := "PUT"
    URL := e.baseURL ++ logsURL
    Header := Header.Set env (Header.Set env (fun _ => []) "Content-Type" "application/json")
      extensionIdentifierHeader e.ExtensionID
    Body := reqBody types params }

/-- An environment for concrete runs: header keys are taken as already canonical, the
standard methods are valid, and a URL parses unless it contains a space. -/
def testEnv : Env where
  canonicalKey := fun k => k
  methodErr := fun m =>
    if m ∈ ["GET", "HEAD", "POST", "PUT", "PATCH", "DELETE"] then none
    else some ⟨"net/http: invalid method"⟩
  urlParseErr := fun u =>
    if u.data.any (fun c => c.toNat = 32) then some ⟨"net/url: invalid character in host name"⟩ else none

/-- A transport that answers every request in the same way. -/
def constClient (r : DoResult) : HTTPClient := ⟨[], 0, fun _ _ => r⟩

/-- A client of the Lambda runtime API using `constClient`. -/
def testClient (r : DoResult) : Client := ⟨"http://127.0.0.1:9001", "ext-1", constClient r⟩

/-- The three error kinds named by the specification; the source declares no such
types. -/
inductive SpecErrorKind where
  | SerializationError : SpecErrorKind
  | TransportError : SpecErrorKind
  | APIError : SpecErrorKind
deriving DecidableEq, Repr

/-- Substring: `s` occurs in `t`. -/
def occursIn (s t : String) : Prop := s.data <:+: t.data

/-- Value of a decimal digit string, read left to right. -/
def decodeDecimal (cs : List Char) : Nat :=
  cs.foldl (fun acc c => acc * 10 + (c.toNat - 48)) 0

/-! ## Evaluating the function -/

theorem json_Marshal_payload (types : Slice LogType) (params : SubscribeLogsParams) :
    json_Marshal (payload types params) = Except.ok (JSON.obj [
      ("buffering", JSON.obj [
        ("maxBytes", JSON.num params.MaxBytes),
        ("maxItems", JSON.num params.MaxItems),
        ("timeoutMs", JSON.num params.TimeoutMS)]),
      ("destination", JSON.obj [
        ("URI", JSON.str ("http://sandbox:" ++ formatUint params.ListenPort)),
        ("encoding", JSON.str "JSON"),
        ("method", JSON.str "POST"),
        ("protocol", JSON.str "HTTP")]),
      ("types", match types with
        | Slice.nil => JSON.null
        | Slice.elems ts => JSON.arr (ts.map JSON.str))]) := by
  cases types <;> rfl

theorem reqBody_marshal (types : Slice LogType) (params : SubscribeLogsParams) :
    json_Marshal (payload types params) = Except.ok (reqBody types params) := by
  unfold reqBody
  rw [json_Marshal_payload]

theorem newRequest_put (env : Env) (ctx : Context) (url : String) (body : JSON) :
    http_NewRequestWithContext env ctx "PUT" url body =
      match newRequestErr env ctx "PUT" url with
      | some err => Except.error err
      | none => Except.ok ⟨ctx, "PUT", url, fun _ => [], body⟩ := by
  rfl

/-- A call whose request cannot be built returns the builder's error and leaves the
client as it was. -/
theorem SubscribeLogs_not_built (env : Env) (hdr : String) (e : Client) (ctx : Context)
    (types : Slice LogType) (params : SubscribeLogsParams) (c : GoError)
    (h : newRequestErr env ctx "PUT" (e.baseURL ++ logsURL) = some c) :
    SubscribeLogs env hdr e ctx types params = ((SubscribeResponse.zero, some c), e) := by
  unfold SubscribeLogs
  simp only [reqBody_marshal, newRequest_put, h]

/-- A call whose request is built hands `outboundRequest` to the transport once and
decides on the transport's answer. -/
theorem SubscribeLogs_built (env : Env) (hdr : String) (e : Client) (ctx : Context)
    (types : Slice LogType) (params : SubscribeLogsParams)
    (h : newRequestErr env ctx "PUT" (e.baseURL ++ logsURL) = none) :
    SubscribeLogs env hdr e ctx types params =
      match e.httpClient.Do (outboundRequest env hdr e ctx types params) with
      | (DoResult.fail err _, hc) =>
          ((SubscribeResponse.zero, some err), { e with httpClient := hc })
      | (DoResult.ok httpRes, hc) =>
          match httpRes.Body.err with
          | some err =>
              ((SubscribeResponse.zero, some err), { e with httpClient := hc.closeBody })
          | none =>
              if httpRes.StatusCode ≠ 200 then
                ((SubscribeResponse.zero,
                  some (fmt_Errorf_status httpRes.Status httpRes.Body.data)),
                  { e with httpClient := hc.closeBody })
              else
                ((⟨httpRes.Body.data⟩, none), { e with httpClient := hc.closeBody }) := by
  unfold SubscribeLogs
  simp only [reqBody_marshal, newRequest_put, h]
  unfold outboundRequest HTTPClient.Do
  cases hr : e.httpClient.respond e.httpClient.sent _ with
  | fail err r => rfl
  | ok httpRes =>
      simp only [ioutil_ReadAll, http_StatusOK]
      cases hb : httpRes.Body.err with
      | some err => simp [hb]
      | none => simp [hb, SubscribeResponse.zero]

theorem SubscribeLogs_do_fail (env : Env) (hdr : String) (e : Client) (ctx : Context)
    (types : Slice LogType) (params : SubscribeLogsParams) (c : GoError)
    (r : Option Response)
    (h : newRequestErr env ctx "PUT" (e.baseURL ++ logsURL) = none)
    (hdo : (e.httpClient.Do (outboundRequest env hdr e ctx types params)).1
      = DoResult.fail c r) :
    SubscribeLogs env hdr e ctx types params = ((SubscribeResponse.zero, some c),
      { e with httpClient := (e.httpClient.Do (outboundRequest env hdr e ctx types params)).2 })
    := by
  rw [SubscribeLogs_built env hdr e ctx types params h]
  have hp : e.httpClient.Do (outboundRequest env hdr e ctx types params)
      = (DoResult.fail c r, (e.httpClient.Do (outboundRequest env hdr e ctx types params)).2) :=
    Prod.ext hdo rfl
  rw [hp]

theorem SubscribeLogs_do_ok (env : Env) (hdr : String) (e : Client) (ctx : Context)
    (types : Slice LogType) (params : SubscribeLogsParams) (resp : Response)
    (h : newRequestErr env ctx "PUT" (e.baseURL ++ logsURL) = none)
    (hdo : (e.httpClient.Do (outboundRequest env hdr e ctx types params)).1
      = DoResult.ok resp) :
    SubscribeLogs env hdr e ctx types params =
      ((match resp.Body.err with
        | some err => (SubscribeResponse.zero, some err)
        | none =>
            if resp.StatusCode ≠ 200 then
              (SubscribeResponse.zero, some (fmt_Errorf_status resp.Status resp.Body.data))
            else (⟨resp.Body.data⟩, none)),
      { e with httpClient :=
          (e.httpClient.Do (outboundRequest env hdr e ctx types params)).2.closeBody }) := by
  rw [SubscribeLogs_built env hdr e ctx types params h]
  have hp : e.httpClient.Do (outboundRequest env hdr e ctx types params)
      = (DoResult.ok resp, (e.httpClient.Do (outboundRequest env hdr e ctx types params)).2) :=
    Prod.ext hdo rfl
  rw [hp]
  cases hb : resp.Body.err with
  | some err => simp [hb]
  | none => by_cases hs : resp.StatusCode = 200 <;> simp [hb, hs]

theorem occursIn_middle (a s b : String) : occursIn s (a ++ s ++ b) := by
  unfold occursIn
  exact ⟨a.data, b.data, by simp [String.data_append]⟩

theorem fmt_Errorf_status_occurs (status body : String) :
    occursIn status (fmt_Errorf_status status body).msg
    ∧ occursIn body (fmt_Errorf_status status body).msg
    ∧ body.data <:+ (fmt_Errorf_status status body).msg.data := by
  unfold fmt_Errorf_status occursIn
  refine ⟨⟨"extension: SubscribeLogs failed, status: ".data, (", response: " ++ body).data, ?_⟩,
    ⟨("extension: SubscribeLogs failed, status: " ++ status ++ ", response: ").data, [], ?_⟩,
    ⟨("extension: SubscribeLogs failed, status: " ++ status ++ ", response: ").data, ?_⟩⟩
  all_goals simp [String.data_append]

/-! ## Outcome of a call -/

/-- C1. When the request is built, the HTTP call returns a response, the body is read in
full as `b` and the status code is 200, `SubscribeLogs` returns a nil error and a
`SubscribeResponse` whose body is exactly `b`. -/
theorem SubscribeLogs_status_ok_returns_body (env : Env) (hdr : String) (e : Client)
    (ctx : Context) (types : Slice LogType) (params : SubscribeLogsParams)
    (resp : Response) (b : String)
    (hbuilt : newRequestErr env ctx "PUT" (e.baseURL ++ logsURL) = none)
    (hdo : (e.httpClient.Do (outboundRequest env hdr e ctx types params)).1
      = DoResult.ok resp)
    (hread : ioutil_ReadAll resp.Body = (b, none))
    (hstatus : resp.StatusCode = 200) :
    (SubscribeLogs env hdr e ctx types params).1 = (⟨b⟩, none) := by
  rw [SubscribeLogs_do_ok env hdr e ctx types params resp hbuilt hdo]
  simp only [ioutil_ReadAll, Prod.mk.injEq] at hread
  simp [hread.1, hread.2, hstatus]

/-- C1, at status 200 with body `ok`: the payload is `ok`. -/
theorem SubscribeLogs_status_ok_returns_body_witness :
    (SubscribeLogs testEnv "Lambda-Extension-Identifier"
      (testClient (DoResult.ok ⟨"200 OK", 200, ⟨"ok", none⟩⟩)) Context.live
      (Slice.elems [Platform, Function]) ⟨8080, 10000, 262144, 1000⟩).1 = (⟨"ok"⟩, none) :=
  SubscribeLogs_status_ok_returns_body testEnv "Lambda-Extension-Identifier"
    (testClient (DoResult.ok ⟨"200 OK", 200, ⟨"ok", none⟩⟩)) Context.live
    (Slice.elems [Platform, Function]) ⟨8080, 10000, 262144, 1000⟩
    ⟨"200 OK", 200, ⟨"ok", none⟩⟩ "ok" (by decide) rfl rfl rfl

/-- C2, as amended. When the request is built, the HTTP call returns a response whose
status code is not 200 and the body is read in full as `b`, `SubscribeLogs` returns the zero response
and an error whose message is the fixed prefix, the response status text, the fixed
separator and `b`: the status text occurs in it and `b` is its untruncated end. -/
theorem SubscribeLogs_status_not_ok_error (env : Env) (hdr : String) (e : Client)
    (ctx : Context) (types : Slice LogType) (params : SubscribeLogsParams)
    (resp : Response) (b : String)
    (hbuilt : newRequestErr env ctx "PUT" (e.baseURL ++ logsURL) = none)
    (hdo : (e.httpClient.Do (outboundRequest env hdr e ctx types params)).1
      = DoResult.ok resp)
    (hread : ioutil_ReadAll resp.Body = (b, none))
    (hstatus : resp.StatusCode ≠ 200) :
    ∃ err : GoError,
      (SubscribeLogs env hdr e ctx types params).1 = (SubscribeResponse.zero, some err)
      ∧ err.msg = "extension: SubscribeLogs failed, status: " ++ resp.Status
          ++ ", response: " ++ b
      ∧ occursIn resp.Status err.msg
      ∧ occursIn b err.msg
      ∧ b.data <:+ err.msg.data := by
  simp only [ioutil_ReadAll, Prod.mk.injEq] at hread
  refine ⟨fmt_Errorf_status resp.Status b, ?_, rfl, fmt_Errorf_status_occurs resp.Status b⟩
  rw [SubscribeLogs_do_ok env hdr e ctx types params resp hbuilt hdo]
  simp [hread.1, hread.2, hstatus]

/-- C2, at status 400 with a JSON body and at status 204 with an empty body. -/
theorem SubscribeLogs_status_not_ok_error_witness :
    (∃ err : GoError,
      (SubscribeLogs testEnv "Lambda-Extension-Identifier"
        (testClient (DoResult.ok
          ⟨"400 Bad Request", 400, ⟨"\x7b\"error\":\"bad buffering\"\x7d", none⟩⟩))
        Context.live (Slice.elems [Platform]) ⟨8080, 10000, 262144, 1000⟩).1
          = (SubscribeResponse.zero, some err)
      ∧ err.msg = "extension: SubscribeLogs failed, status: " ++ "400 Bad Request"
          ++ ", response: " ++ "\x7b\"error\":\"bad buffering\"\x7d"
      ∧ occursIn "400 Bad Request" err.msg
      ∧ occursIn "\x7b\"error\":\"bad buffering\"\x7d" err.msg
      ∧ "\x7b\"error\":\"bad buffering\"\x7d".data <:+ err.msg.data)
    ∧ ∃ err : GoError,
      (SubscribeLogs testEnv "Lambda-Extension-Identifier"
        (testClient (DoResult.ok ⟨"204 No Content", 204, ⟨"", none⟩⟩))
        Context.live (Slice.elems [Platform]) ⟨8080, 10000, 262144, 1000⟩).1
          = (SubscribeResponse.zero, some err)
      ∧ err.msg = "extension: SubscribeLogs failed, status: " ++ "204 No Content"
          ++ ", response: " ++ ""
      ∧ occursIn "204 No Content" err.msg
      ∧ occursIn "" err.msg
      ∧ "".data <:+ err.msg.data :=
  ⟨SubscribeLogs_status_not_ok_error testEnv "Lambda-Extension-Identifier"
      (testClient (DoResult.ok
        ⟨"400 Bad Request", 400, ⟨"\x7b\"error\":\"bad buffering\"\x7d", none⟩⟩))
      Context.live (Slice.elems [Platform]) ⟨8080, 10000, 262144, 1000⟩
      ⟨"400 Bad Request", 400, ⟨"\x7b\"error\":\"bad buffering\"\x7d", none⟩⟩
      "\x7b\"error\":\"bad buffering\"\x7d" (by decide) rfl rfl (by decide),
    SubscribeLogs_status_not_ok_error testEnv "Lambda-Extension-Identifier"
      (testClient (DoResult.ok ⟨"204 No Content", 204, ⟨"", none⟩⟩))
      Context.live (Slice.elems [Platform]) ⟨8080, 10000, 262144, 1000⟩
      ⟨"204 No Content", 204, ⟨"", none⟩⟩ "" (by decide) rfl rfl (by decide)⟩

/-- C2 as stated fails when the body cannot be read: for a response with status 500
Internal Server Error whose body stream yields `par` and then fails with `unexpected
EOF`, the status code is not 200, and `SubscribeLogs` returns the read error alone. Its
message contains neither the status text, nor the status code, nor the bytes of the
body. -/
theorem SubscribeLogs_status_not_ok_read_failure :
    (⟨"500 Internal Server Error", 500, ⟨"par", some ⟨"unexpected EOF"⟩⟩⟩ : Response).StatusCode
      ≠ 200
    ∧ (SubscribeLogs testEnv "Lambda-Extension-Identifier"
        (testClient (DoResult.ok
          ⟨"500 Internal Server Error", 500, ⟨"par", some ⟨"unexpected EOF"⟩⟩⟩))
        Context.live (Slice.elems [Platform]) ⟨8080, 10000, 262144, 1000⟩).1
          = (SubscribeResponse.zero, some ⟨"unexpected EOF"⟩)
    ∧ ¬ (∃ err : GoError,
        (SubscribeLogs testEnv "Lambda-Extension-Identifier"
          (testClient (DoResult.ok
            ⟨"500 Internal Server Error", 500, ⟨"par", some ⟨"unexpected EOF"⟩⟩⟩))
          Context.live (Slice.elems [Platform]) ⟨8080, 10000, 262144, 1000⟩).1.2 = some err
        ∧ occursIn "500 Internal Server Error" err.msg)
    ∧ ¬ (∃ err : GoError,
        (SubscribeLogs testEnv "Lambda-Extension-Identifier"
          (testClient (DoResult.ok
            ⟨"500 Internal Server Error", 500, ⟨"par", some ⟨"unexpected EOF"⟩⟩⟩))
          Context.live (Slice.elems [Platform]) ⟨8080, 10000, 262144, 1000⟩).1.2 = some err
        ∧ occursIn "500" err.msg)
    ∧ ¬ (∃ err : GoError,
        (SubscribeLogs testEnv "Lambda-Extension-Identifier"
          (testClient (DoResult.ok
            ⟨"500 Internal Server Error", 500, ⟨"par", some ⟨"unexpected EOF"⟩⟩⟩))
          Context.live (Slice.elems [Platform]) ⟨8080, 10000, 262144, 1000⟩).1.2 = some err
        ∧ occursIn "par" err.msg) := by
  have hrun : (SubscribeLogs testEnv "Lambda-Extension-Identifier"
      (testClient (DoResult.ok
        ⟨"500 Internal Server Error", 500, ⟨"par", some ⟨"unexpected EOF"⟩⟩⟩))
      Context.live (Slice.elems [Platform]) ⟨8080, 10000, 262144, 1000⟩).1
        = (SubscribeResponse.zero, some ⟨"unexpected EOF"⟩) := by decide
  refine ⟨by decide, hrun, ?_, ?_, ?_⟩
  all_goals
    rintro ⟨err, herr, hocc⟩
    rw [hrun] at herr
    cases herr
    revert hocc
    unfold occursIn
    decide

/-! ## The request body -/

theorem digitChar_value : ∀ k, k < 10 → (Nat.digitChar k).toNat - 48 = k := by
  decide

theorem decode_toDigitsCore (fuel : Nat) : ∀ (n : Nat) (ds : List Char), n < fuel →
    (Nat.toDigitsCore 10 fuel n ds).foldl (fun acc c => acc * 10 + (c.toNat - 48)) 0
      = ds.foldl (fun acc c => acc * 10 + (c.toNat - 48)) n := by
  induction fuel with
  | zero => intro n ds h; omega
  | succ fuel ih =>
      intro n ds h
      have hd : (Nat.digitChar (n % 10)).toNat - 48 = n % 10 :=
        digitChar_value (n % 10) (Nat.mod_lt n (by decide))
      by_cases h0 : n / 10 = 0
      · have hn : n % 10 = n := Nat.mod_eq_of_lt (by omega)
        rw [hn] at hd
        simp [Nat.toDigitsCore, h0, hd, hn]
      · have hlt : n / 10 < fuel := by omega
        have hn : n / 10 * 10 + n % 10 = n := by omega
        simp [Nat.toDigitsCore, h0, ih (n / 10) _ hlt, hd, hn]

/-- The decimal digits written by `formatUint` read back as the number. -/
theorem decodeDecimal_formatUint (n : Nat) : decodeDecimal (formatUint n).data = n := by
  unfold decodeDecimal formatUint Nat.toDigits
  simpa using decode_toDigitsCore (n + 1) n [] (Nat.lt_succ_self n)

/-- C3. For every category list and every parameter value, the payload serializes, and
the document is an object whose keys are exactly `buffering`, `destination` and `types`;
its `buffering` member is an object whose keys are exactly `maxBytes`, `maxItems` and
`timeoutMs`, holding `params.MaxBytes`, `params.MaxItems` and `params.TimeoutMS`
unchanged, whatever their values. -/
theorem request_body_keys_and_buffering (types : Slice LogType)
    (params : SubscribeLogsParams) :
    ∃ doc : JSON, json_Marshal (payload types params) = Except.ok doc
      ∧ doc.isObj = true
      ∧ doc.keys = ["buffering", "destination", "types"]
      ∧ doc.get? "buffering" = some (JSON.obj [
          ("maxBytes", JSON.num params.MaxBytes),
          ("maxItems", JSON.num params.MaxItems),
          ("timeoutMs", JSON.num params.TimeoutMS)])
      ∧ (∀ b : JSON, doc.get? "buffering" = some b →
          b.keys = ["maxBytes", "maxItems", "timeoutMs"]
          ∧ b.get? "timeoutMs" = some (JSON.num params.TimeoutMS)
          ∧ b.get? "maxBytes" = some (JSON.num params.MaxBytes)
          ∧ b.get? "maxItems" = some (JSON.num params.MaxItems)) := by
  refine ⟨_, json_Marshal_payload types params, rfl, rfl, rfl, ?_⟩
  intro b hb
  have hb2 : some (JSON.obj [
      ("maxBytes", JSON.num params.MaxBytes),
      ("maxItems", JSON.num params.MaxItems),
      ("timeoutMs", JSON.num params.TimeoutMS)]) = some b := hb
  cases hb2
  exact ⟨rfl, rfl, rfl, rfl⟩

/-- C4. For every listen port, the `destination` member of the request body is exactly
the object with `URI` equal to `http://sandbox:` followed by the decimal digits of the
port, `encoding` equal to `JSON`, `method` equal to `POST` and `protocol` equal to
`HTTP`; the digits read back as the port, so no port is rejected or altered. -/
theorem request_body_destination (types : Slice LogType) (params : SubscribeLogsParams) :
    ∃ doc : JSON, json_Marshal (payload types params) = Except.ok doc
      ∧ doc.get? "destination" = some (JSON.obj [
          ("URI", JSON.str ("http://sandbox:" ++ String.mk (Nat.toDigits 10 params.ListenPort))),
          ("encoding", JSON.str "JSON"),
          ("method", JSON.str "POST"),
          ("protocol", JSON.str "HTTP")])
      ∧ decodeDecimal (Nat.toDigits 10 params.ListenPort) = params.ListenPort := by
  exact ⟨_, json_Marshal_payload types params, rfl, decodeDecimal_formatUint params.ListenPort⟩

/-- C5, as amended. For every non-nil list of categories, the empty one and lists with
repeats included, the `types` member of the request body is an array of the same length
whose i-th element is the string of the i-th category (`Platform` is `platform`,
`Function` is `function`, `Extension` is `extension`). The nil slice serializes too, as
JSON `null`. -/
theorem request_body_types (ts : List LogType) (params : SubscribeLogsParams) :
    (∃ doc : JSON, json_Marshal (payload (Slice.elems ts) params) = Except.ok doc
      ∧ ∃ xs : List JSON, doc.get? "types" = some (JSON.arr xs)
        ∧ xs = ts.map JSON.str
        ∧ xs.length = ts.length
        ∧ ∀ (i : Nat) (h : i < ts.length), xs[i]? = some (JSON.str (ts.get ⟨i, h⟩)))
    ∧ (∃ doc : JSON, json_Marshal (payload Slice.nil params) = Except.ok doc
      ∧ doc.get? "types" = some JSON.null)
    ∧ JSON.str Platform = JSON.str "platform"
    ∧ JSON.str Function = JSON.str "function"
    ∧ JSON.str Extension = JSON.str "extension" := by
  refine ⟨⟨_, json_Marshal_payload (Slice.elems ts) params, ts.map JSON.str, rfl, rfl,
    List.length_map ts JSON.str, ?_⟩, ⟨_, json_Marshal_payload Slice.nil params, rfl⟩,
    rfl, rfl, rfl⟩
  intro i h
  simp [List.getElem?_map, List.getElem?_eq_getElem h]

/-- C5 as stated fails for the nil slice: it has length 0, and the `types` member of the
request body is `null`, which is not an array. -/
theorem request_body_types_nil_not_array :
    (Slice.nil : Slice LogType).len = 0
    ∧ ∃ doc : JSON,
        json_Marshal (payload Slice.nil ⟨8080, 10000, 262144, 1000⟩) = Except.ok doc
        ∧ doc.get? "types" = some JSON.null
        ∧ ¬ ∃ xs : List JSON, doc.get? "types" = some (JSON.arr xs) := by
  refine ⟨rfl, _, json_Marshal_payload Slice.nil ⟨8080, 10000, 262144, 1000⟩, rfl, ?_⟩
  rintro ⟨xs, hxs⟩
  have h2 : some JSON.null = some (JSON.arr xs) := hxs
  cases h2

/-! ## The outbound request -/

theorem SubscribeLogs_sent (env : Env) (hdr : String) (e : Client) (ctx : Context)
    (types : Slice LogType) (params : SubscribeLogsParams) :
    (SubscribeLogs env hdr e ctx types params).2.httpClient.sent = e.httpClient.sent ++
        (match newRequestErr env ctx "PUT" (e.baseURL ++ logsURL) with
          | none => [outboundRequest env hdr e ctx types params]
          | some _ => [])
    ∧ (SubscribeLogs env hdr e ctx types params).2.baseURL = e.baseURL
    ∧ (SubscribeLogs env hdr e ctx types params).2.ExtensionID = e.ExtensionID
    ∧ (SubscribeLogs env hdr e ctx types params).2.httpClient.respond
        = e.httpClient.respond := by
  cases hb : newRequestErr env ctx "PUT" (e.baseURL ++ logsURL) with
  | some c =>
      rw [SubscribeLogs_not_built env hdr e ctx types params c hb]
      simp
  | none =>
      cases hd : (e.httpClient.Do (outboundRequest env hdr e ctx types params)).1 with
      | fail c r =>
          rw [SubscribeLogs_do_fail env hdr e ctx types params c r hb hd]
          simp [HTTPClient.Do]
      | ok resp =>
          rw [SubscribeLogs_do_ok env hdr e ctx types params resp hb hd]
          simp [HTTPClient.Do, HTTPClient.closeBody]

/-- C6. When the request is built, and the extension-identity header is a header other
than `Content-Type`, the one request handed to the transport has method `PUT`, URL the
client's base URL followed by `/2020-08-15/logs`, header `Content-Type` equal to
`application/json` and the extension-identity header equal to the client's
`ExtensionID`; a call with any other categories and parameters sends a request with the
same method, URL and headers. -/
theorem outbound_request_target_and_headers (env : Env) (hdr : String) (e : Client)
    (ctx : Context) (types : Slice LogType) (params : SubscribeLogsParams)
    (hbuilt : newRequestErr env ctx "PUT" (e.baseURL ++ logsURL) = none)
    (hkey : env.canonicalKey hdr ≠ env.canonicalKey "Content-Type") :
    ∃ req : Request,
      (SubscribeLogs env hdr e ctx types params).2.httpClient.sent
        = e.httpClient.sent ++ [req]
      ∧ req.Method = "PUT"
      ∧ req.URL = e.baseURL ++ "/2020-08-15/logs"
      ∧ Header.Get env req.Header "Content-Type" = "application/json"
      ∧ Header.Get env req.Header hdr = e.ExtensionID
      ∧ ∀ (types2 : Slice LogType) (params2 : SubscribeLogsParams), ∃ req2 : Request,
          (SubscribeLogs env hdr e ctx types2 params2).2.httpClient.sent
            = e.httpClient.sent ++ [req2]
          ∧ req2.Method = req.Method ∧ req2.URL = req.URL ∧ req2.Header = req.Header := by
  refine ⟨outboundRequest env hdr e ctx types params, ?_, rfl, rfl, ?_, ?_, ?_⟩
  · rw [(SubscribeLogs_sent env hdr e ctx types params).1, hbuilt]
  · simp [outboundRequest, Header.Get, Header.Set, Ne.symm hkey]
  · simp [outboundRequest, Header.Get, Header.Set]
  · intro types2 params2
    refine ⟨outboundRequest env hdr e ctx types2 params2, ?_, rfl, rfl, rfl⟩
    rw [(SubscribeLogs_sent env hdr e ctx types2 params2).1, hbuilt]

/-- C6, for a client with base URL `http://127.0.0.1:9001` and identifier `ext-1`. -/
theorem outbound_request_target_and_headers_witness :
    ∃ req : Request,
      (SubscribeLogs testEnv "Lambda-Extension-Identifier"
        (testClient (DoResult.ok ⟨"200 OK", 200, ⟨"ok", none⟩⟩)) Context.live
        (Slice.elems [Platform]) ⟨8080, 10000, 262144, 1000⟩).2.httpClient.sent = [] ++ [req]
      ∧ req.Method = "PUT"
      ∧ req.URL = "http://127.0.0.1:9001" ++ "/2020-08-15/logs"
      ∧ Header.Get testEnv req.Header "Content-Type" = "application/json"
      ∧ Header.Get testEnv req.Header "Lambda-Extension-Identifier" = "ext-1"
      ∧ ∀ (types2 : Slice LogType) (params2 : SubscribeLogsParams), ∃ req2 : Request,
          (SubscribeLogs testEnv "Lambda-Extension-Identifier"
            (testClient (DoResult.ok ⟨"200 OK", 200, ⟨"ok", none⟩⟩)) Context.live
            types2 params2).2.httpClient.sent = [] ++ [req2]
          ∧ req2.Method = req.Method ∧ req2.URL = req.URL ∧ req2.Header = req.Header :=
  outbound_request_target_and_headers testEnv "Lambda-Extension-Identifier"
    (testClient (DoResult.ok ⟨"200 OK", 200, ⟨"ok", none⟩⟩)) Context.live
    (Slice.elems [Platform]) ⟨8080, 10000, 262144, 1000⟩ (by decide) (by decide)

/-- C8. The payload of every call serializes. The requests recorded by the transport
after a call are those recorded before, followed by exactly one request when the request
is built, whatever the transport answers, and by none when request building fails; the
client's base URL and extension identifier are unchanged. -/
theorem SubscribeLogs_issues_one_request (env : Env) (hdr : String) (e : Client)
    (ctx : Context) (types : Slice LogType) (params : SubscribeLogsParams) :
    (∃ doc : JSON, json_Marshal (payload types params) = Except.ok doc)
    ∧ (SubscribeLogs env hdr e ctx types params).2.httpClient.sent = e.httpClient.sent ++
        (match newRequestErr env ctx "PUT" (e.baseURL ++ logsURL) with
          | none => [outboundRequest env hdr e ctx types params]
          | some _ => [])
    ∧ (SubscribeLogs env hdr e ctx types params).2.httpClient.sent.length
        = e.httpClient.sent.length +
          (match newRequestErr env ctx "PUT" (e.baseURL ++ logsURL) with
            | none => 1
            | some _ => 0)
    ∧ (SubscribeLogs env hdr e ctx types params).2.baseURL = e.baseURL
    ∧ (SubscribeLogs env hdr e ctx types params).2.ExtensionID = e.ExtensionID := by
  obtain ⟨h1, h2, h3, _⟩ := SubscribeLogs_sent env hdr e ctx types params
  refine ⟨⟨_, reqBody_marshal types params⟩, h1, ?_, h2, h3⟩
  rw [h1]
  cases newRequestErr env ctx "PUT" (e.baseURL ++ logsURL) <;> simp

/-! ## Failures -/

/-- C7. If the request cannot be built with cause `c`, or it is built and the HTTP call
fails with cause `c` (whatever response accompanies the failure), `SubscribeLogs` returns
the zero response together with exactly `c`. -/
theorem SubscribeLogs_returns_underlying_cause (env : Env) (hdr : String) (e : Client)
    (ctx : Context) (types : Slice LogType) (params : SubscribeLogsParams) (c : GoError)
    (h : newRequestErr env ctx "PUT" (e.baseURL ++ logsURL) = some c
      ∨ (newRequestErr env ctx "PUT" (e.baseURL ++ logsURL) = none
        ∧ ∃ r : Option Response,
          (e.httpClient.Do (outboundRequest env hdr e ctx types params)).1
            = DoResult.fail c r)) :
    (SubscribeLogs env hdr e ctx types params).1 = (SubscribeResponse.zero, some c) := by
  rcases h with h | ⟨hb, r, hd⟩
  · rw [SubscribeLogs_not_built env hdr e ctx types params c h]
  · rw [SubscribeLogs_do_fail env hdr e ctx types params c r hb hd]

/-- C7, for a nil context (the request cannot be built) and for a cancelled context whose
endpoint would have answered 200. -/
theorem SubscribeLogs_returns_underlying_cause_witness :
    (SubscribeLogs testEnv "Lambda-Extension-Identifier"
      (testClient (DoResult.ok ⟨"200 OK", 200, ⟨"ok", none⟩⟩)) Context.nil
      (Slice.elems [Platform]) ⟨8080, 10000, 262144, 1000⟩).1
        = (SubscribeResponse.zero, some ⟨"net/http: nil Context"⟩)
    ∧ (SubscribeLogs testEnv "Lambda-Extension-Identifier"
      (testClient (DoResult.fail ⟨"context canceled"⟩ (some ⟨"200 OK", 200, ⟨"ok", none⟩⟩)))
      (Context.done ⟨"context canceled"⟩)
      (Slice.elems [Platform]) ⟨8080, 10000, 262144, 1000⟩).1
        = (SubscribeResponse.zero, some ⟨"context canceled"⟩) :=
  ⟨SubscribeLogs_returns_underlying_cause testEnv "Lambda-Extension-Identifier"
      (testClient (DoResult.ok ⟨"200 OK", 200, ⟨"ok", none⟩⟩)) Context.nil
      (Slice.elems [Platform]) ⟨8080, 10000, 262144, 1000⟩ ⟨"net/http: nil Context"⟩
      (Or.inl (by decide)),
    SubscribeLogs_returns_underlying_cause testEnv "Lambda-Extension-Identifier"
      (testClient (DoResult.fail ⟨"context canceled"⟩ (some ⟨"200 OK", 200, ⟨"ok", none⟩⟩)))
      (Context.done ⟨"context canceled"⟩)
      (Slice.elems [Platform]) ⟨8080, 10000, 262144, 1000⟩ ⟨"context canceled"⟩
      (Or.inr ⟨by decide, some ⟨"200 OK", 200, ⟨"ok", none⟩⟩, rfl⟩)⟩

theorem SubscribeLogs_err (env : Env) (hdr : String) (e : Client) (ctx : Context)
    (types : Slice LogType) (params : SubscribeLogsParams) :
    (SubscribeLogs env hdr e ctx types params).1 =
      match newRequestErr env ctx "PUT" (e.baseURL ++ logsURL) with
      | some c => (SubscribeResponse.zero, some c)
      | none =>
          match (e.httpClient.Do (outboundRequest env hdr e ctx types params)).1 with
          | DoResult.fail c _ => (SubscribeResponse.zero, some c)
          | DoResult.ok resp =>
              match resp.Body.err with
              | some c => (SubscribeResponse.zero, some c)
              | none =>
                  if resp.StatusCode ≠ 200 then
                    (SubscribeResponse.zero,
                      some (fmt_Errorf_status resp.Status resp.Body.data))
                  else (⟨resp.Body.data⟩, none) := by
  cases hb : newRequestErr env ctx "PUT" (e.baseURL ++ logsURL) with
  | some c => rw [SubscribeLogs_not_built env hdr e ctx types params c hb]
  | none =>
      cases hd : (e.httpClient.Do (outboundRequest env hdr e ctx types params)).1 with
      | fail c r => rw [SubscribeLogs_do_fail env hdr e ctx types params c r hb hd]
      | ok resp => rw [SubscribeLogs_do_ok env hdr e ctx types params resp hb hd]

theorem SubscribeLogs_result_cases (env : Env) (hdr : String) (e : Client) (ctx : Context)
    (types : Slice LogType) (params : SubscribeLogsParams) :
    (∃ c : GoError,
      (SubscribeLogs env hdr e ctx types params).1 = (SubscribeResponse.zero, some c))
    ∨ ∃ b : String, (SubscribeLogs env hdr e ctx types params).1 = (⟨b⟩, none) := by
  rw [SubscribeLogs_err]
  cases newRequestErr env ctx "PUT" (e.baseURL ++ logsURL) with
  | some c => exact Or.inl ⟨c, rfl⟩
  | none =>
      cases (e.httpClient.Do (outboundRequest env hdr e ctx types params)).1 with
      | fail c r => exact Or.inl ⟨c, rfl⟩
      | ok resp =>
          cases hb : resp.Body.err with
          | some c => exact Or.inl ⟨c, by simp [hb]⟩
          | none =>
              by_cases hs : resp.StatusCode = 200
              · exact Or.inr ⟨resp.Body.data, by simp [hb, hs]⟩
              · exact Or.inl ⟨fmt_Errorf_status resp.Status resp.Body.data, by simp [hb, hs]⟩

/-- C10. Whenever `SubscribeLogs` returns an error, the returned response is the zero
value and its body is empty; a response with a non-empty body comes only with a nil
error. -/
theorem SubscribeLogs_error_gives_zero_response (env : Env) (hdr : String) (e : Client)
    (ctx : Context) (types : Slice LogType) (params : SubscribeLogsParams) :
    (∀ err : GoError, (SubscribeLogs env hdr e ctx types params).1.2 = some err →
      (SubscribeLogs env hdr e ctx types params).1.1 = SubscribeResponse.zero
      ∧ (SubscribeLogs env hdr e ctx types params).1.1.body = "")
    ∧ ((SubscribeLogs env hdr e ctx types params).1.1.body ≠ "" →
      (SubscribeLogs env hdr e ctx types params).1.2 = none) := by
  rcases SubscribeLogs_result_cases env hdr e ctx types params with ⟨c, hc⟩ | ⟨b, hb⟩
  · rw [hc]
    exact ⟨fun _ _ => ⟨rfl, rfl⟩, fun h => absurd rfl h⟩
  · rw [hb]
    exact ⟨fun err h => by simp at h, fun _ => rfl⟩

/-- C10, for a response with status 500 and body `boom`: the error is returned with the
zero response, not with the body. -/
theorem SubscribeLogs_error_gives_zero_response_witness :
    (SubscribeLogs testEnv "Lambda-Extension-Identifier"
      (testClient (DoResult.ok ⟨"500 Internal Server Error", 500, ⟨"boom", none⟩⟩))
      Context.live (Slice.elems [Platform]) ⟨8080, 10000, 262144, 1000⟩).1.2
        = some ⟨"extension: SubscribeLogs failed, status: 500 Internal Server Error, response: boom"⟩
    ∧ (SubscribeLogs testEnv "Lambda-Extension-Identifier"
      (testClient (DoResult.ok ⟨"500 Internal Server Error", 500, ⟨"boom", none⟩⟩))
      Context.live (Slice.elems [Platform]) ⟨8080, 10000, 262144, 1000⟩).1.1
        = SubscribeResponse.zero
    ∧ (SubscribeLogs testEnv "Lambda-Extension-Identifier"
      (testClient (DoResult.ok ⟨"500 Internal Server Error", 500, ⟨"boom", none⟩⟩))
      Context.live (Slice.elems [Platform]) ⟨8080, 10000, 262144, 1000⟩).1.1.body = "" :=
  ⟨by decide,
    (SubscribeLogs_error_gives_zero_response testEnv "Lambda-Extension-Identifier"
      (testClient (DoResult.ok ⟨"500 Internal Server Error", 500, ⟨"boom", none⟩⟩))
      Context.live (Slice.elems [Platform]) ⟨8080, 10000, 262144, 1000⟩).1
      ⟨"extension: SubscribeLogs failed, status: 500 Internal Server Error, response: boom"⟩
      (by decide)⟩

/-- C9, as amended. The payload of every call serializes, so no call fails at
serialization. The error of a call is: the cause of the request-building failure,
unchanged; else the cause of the HTTP call failure, unchanged; else the cause of the
failure to read the response body, unchanged, whatever the status; else, exactly when the
status is not 200, the error formatted from the status text and the body; else nil. These
cases exclude one another. -/
theorem SubscribeLogs_error_by_cause (env : Env) (hdr : String) (e : Client)
    (ctx : Context) (types : Slice LogType) (params : SubscribeLogsParams) :
    (∃ doc : JSON, json_Marshal (payload types params) = Except.ok doc)
    ∧ (SubscribeLogs env hdr e ctx types params).1.2 =
      match newRequestErr env ctx "PUT" (e.baseURL ++ logsURL) with
      | some c => some c
      | none =>
          match (e.httpClient.Do (outboundRequest env hdr e ctx types params)).1 with
          | DoResult.fail c _ => some c
          | DoResult.ok resp =>
              match resp.Body.err with
              | some c => some c
              | none =>
                  if resp.StatusCode ≠ 200 then
                    some (fmt_Errorf_status resp.Status resp.Body.data)
                  else none := by
  refine ⟨⟨_, reqBody_marshal types params⟩, ?_⟩
  rw [SubscribeLogs_err]
  cases newRequestErr env ctx "PUT" (e.baseURL ++ logsURL) with
  | some c => rfl
  | none =>
      cases (e.httpClient.Do (outboundRequest env hdr e ctx types params)).1 with
      | fail c r => rfl
      | ok resp =>
          cases hb : resp.Body.err with
          | some c => simp [hb]
          | none => by_cases hs : resp.StatusCode = 200 <;> simp [hb, hs]

/-- C9 as stated fails: no classification of the returned error into the three kinds
satisfies the stated equivalences, under any of three readings, with the transport
answer `r` ranging over all answers for a fixed client and parameters.
(1) TransportError iff the HTTP call failed, APIError iff the response status is not 200:
a response with status 200 whose body cannot be read fails with none of the kinds.
(2) TransportError also when reading the body failed: a response with status 500 whose
body cannot be read is both kinds.
(3) TransportError as in (2), APIError iff the status is not 200 and the body was read
in full: an HTTP call failure and a 400 response return the same error. Readings (1)
and (2) are refuted at responses a server can send; (3) compares errors by their
message. -/
theorem error_kinds_not_reported :
    (¬ ∃ kind : GoError → SpecErrorKind, ∀ (r : DoResult) (err : GoError),
      (SubscribeLogs testEnv "Lambda-Extension-Identifier" (testClient r) Context.live
        (Slice.elems [Platform]) ⟨8080, 10000, 262144, 1000⟩).1.2 = some err →
      (kind err = SpecErrorKind.SerializationError ↔
        ∃ c, json_Marshal (payload (Slice.elems [Platform]) ⟨8080, 10000, 262144, 1000⟩)
          = Except.error c)
      ∧ (kind err = SpecErrorKind.TransportError ↔ ∃ c x, r = DoResult.fail c x)
      ∧ (kind err = SpecErrorKind.APIError ↔
        ∃ resp, r = DoResult.ok resp ∧ resp.StatusCode ≠ 200))
    ∧ (¬ ∃ kind : GoError → SpecErrorKind, ∀ (r : DoResult) (err : GoError),
      (SubscribeLogs testEnv "Lambda-Extension-Identifier" (testClient r) Context.live
        (Slice.elems [Platform]) ⟨8080, 10000, 262144, 1000⟩).1.2 = some err →
      (kind err = SpecErrorKind.TransportError ↔
        (∃ c x, r = DoResult.fail c x) ∨ ∃ resp c, r = DoResult.ok resp ∧ resp.Body.err = some c)
      ∧ (kind err = SpecErrorKind.APIError ↔
        ∃ resp, r = DoResult.ok resp ∧ resp.StatusCode ≠ 200))
    ∧ (¬ ∃ kind : GoError → SpecErrorKind, ∀ (r : DoResult) (err : GoError),
      (SubscribeLogs testEnv "Lambda-Extension-Identifier" (testClient r) Context.live
        (Slice.elems [Platform]) ⟨8080, 10000, 262144, 1000⟩).1.2 = some err →
      (kind err = SpecErrorKind.TransportError ↔
        (∃ c x, r = DoResult.fail c x) ∨ ∃ resp c, r = DoResult.ok resp ∧ resp.Body.err = some c)
      ∧ (kind err = SpecErrorKind.APIError ↔
        ∃ resp, r = DoResult.ok resp ∧ resp.Body.err = none ∧ resp.StatusCode ≠ 200)) := by
  refine ⟨?_, ?_, ?_⟩
  · rintro ⟨kind, H⟩
    obtain ⟨hs, ht, ha⟩ := H (DoResult.ok ⟨"200 OK", 200, ⟨"par", some ⟨"unexpected EOF"⟩⟩⟩)
      ⟨"unexpected EOF"⟩ (by decide)
    have h1 : kind ⟨"unexpected EOF"⟩ ≠ SpecErrorKind.SerializationError := by
      intro hk
      obtain ⟨c, hc⟩ := hs.mp hk
      rw [json_Marshal_payload] at hc
      cases hc
    have h2 : kind ⟨"unexpected EOF"⟩ ≠ SpecErrorKind.TransportError := by
      intro hk
      obtain ⟨c, x, hc⟩ := ht.mp hk
      cases hc
    have h3 : kind ⟨"unexpected EOF"⟩ ≠ SpecErrorKind.APIError := by
      intro hk
      obtain ⟨resp, hr, hne⟩ := ha.mp hk
      cases hr
      exact hne rfl
    cases hk : kind ⟨"unexpected EOF"⟩ with
    | SerializationError => exact h1 hk
    | TransportError => exact h2 hk
    | APIError => exact h3 hk
  · rintro ⟨kind, H⟩
    obtain ⟨ht, ha⟩ := H (DoResult.ok
      ⟨"500 Internal Server Error", 500, ⟨"par", some ⟨"unexpected EOF"⟩⟩⟩)
      ⟨"unexpected EOF"⟩ (by decide)
    have h1 := ht.mpr (Or.inr ⟨_, _, rfl, rfl⟩)
    have h2 := ha.mpr ⟨_, rfl, by decide⟩
    rw [h1] at h2
    cases h2
  · rintro ⟨kind, H⟩
    obtain ⟨ht, _⟩ := H (DoResult.fail
      ⟨"extension: SubscribeLogs failed, status: 400 Bad Request, response: no"⟩ none)
      ⟨"extension: SubscribeLogs failed, status: 400 Bad Request, response: no"⟩ (by decide)
    obtain ⟨_, ha⟩ := H (DoResult.ok ⟨"400 Bad Request", 400, ⟨"no", none⟩⟩)
      ⟨"extension: SubscribeLogs failed, status: 400 Bad Request, response: no"⟩ (by decide)
    have h1 := ht.mpr (Or.inl ⟨_, _, rfl⟩)
    have h2 := ha.mpr ⟨_, rfl, rfl, by decide⟩
    rw [h1] at h2
    cases h2

end LogsAPI
